import Mathlib

/-!
# Verification of the `jiu` recipe runner's argument resolution pipeline

Shallow embedding of the argument-arity model and the two-phase resolution
pipeline of the `jiu` task runner (`src/arguments.rs` and `src/lib.rs`):

* `ArgumentType`, `ArgumentDefinition`, `ResolvedArgument` mirror the types in
  `arguments.rs`; `ArgumentDefinition.from_string` mirrors the specifier
  parser; `ArgumentType.resolve` mirrors per-arity token consumption.
* `Component` mirrors the command-template token type in `lib.rs`;
  `Component.from_raw` mirrors its untagged deserializer; `Recipe.resolve`
  mirrors `Recipe::resolve` (argument resolution, command expansion, then the
  leftover-token check, in that order).

Rust's `VecDeque<String>` with front mutation is embedded as a `List String`
threaded through each step (pop = head split, drain = take all).  `anyhow`
error messages are embedded as the inductive types `ArgError` / `ResolveError`
with one constructor per `bail!` site (plus the `.with_context` wrapper used
in the argument loop); `std::env::var` becomes an explicit
`env : String → Option String` parameter.  `HashMap::insert`/`get` becomes a
prepend-on-insert association list (`RMap`): a later insert shadows an earlier
binding for lookup, exactly the observable behaviour of `HashMap` overwrite.
-/

deriving instance DecidableEq for Except

namespace Jiu

/-- Mirrors `ArgumentType` (arguments.rs): the arity class of an argument. -/
inductive ArgumentType where
  | Required
  | Optional
  | Variadic
  | RequiredVariadic
deriving DecidableEq

/-- Mirrors `ArgumentDefinition` (arguments.rs): a parsed argument specifier. -/
structure ArgumentDefinition where
  name : String
  arg_type : ArgumentType
deriving DecidableEq

/-- Mirrors `ArgumentDefinition::from_string` (arguments.rs): inspect the first
character; `?`/`*`/`+` select Optional/Variadic/RequiredVariadic and are
stripped (`arg.remove(0)`), anything else gives Required with the string used
unmodified; the empty string fails with the `Empty argument` error. -/
def ArgumentDefinition.from_string (arg : String) : Except String ArgumentDefinition :=
  match arg.data with
  | [] => .error "Empty argument"
  | first :: rest =>
    let arg_type : ArgumentType :=
      if first = '?' then .Optional
      else if first = '*' then .Variadic
      else if first = '+' then .RequiredVariadic
      else .Required
    let name : String := if arg_type = .Required then arg else String.mk rest
    .ok { name := name, arg_type := arg_type }

/-- Mirrors `ArgumentDefinition::summarize` (arguments.rs): sigil followed by
the name, and the summary length.  The `color = true` branch only wraps the
same characters in ANSI styling (display glue), so both branches are embedded
as the plain concatenation; `Recipe::resolve` only ever calls
`summarize(false)`. -/
def ArgumentDefinition.summarize (d : ArgumentDefinition) (color : Bool) : String × Nat :=
  let symbol : String :=
    match d.arg_type with
    | .Required => ""
    | .Optional => "?"
    | .Variadic => "*"
    | .RequiredVariadic => "+"
  (symbol ++ d.name, d.name.length + symbol.length)

/-- Mirrors `ResolvedArgument` (arguments.rs): an argument with its value(s). -/
inductive ResolvedArgument where
  | Required (value : String)
  | Optional (value : Option String)
  | Variadic (values : List String)
  | RequiredVariadic (values : List String)
deriving DecidableEq

/-- The two `bail!` sites of `ArgumentType::resolve` (arguments.rs). -/
inductive ArgError where
  | requiredNotProvided
  | emptyRequiredVariadic
deriving DecidableEq

/-- Mirrors `ArgumentType::resolve` (arguments.rs): Required pops one token or
fails; Optional pops at most one token; Variadic drains the whole queue;
RequiredVariadic drains the whole queue but fails on an empty queue.  The
mutated `VecDeque` is returned as the second component. -/
def ArgumentType.resolve :
    ArgumentType → List String → Except ArgError (ResolvedArgument × List String)
  | .Required, [] => .error .requiredNotProvided
  | .Required, value :: rest => .ok (.Required value, rest)
  | .Optional, [] => .ok (.Optional none, [])
  | .Optional, value :: rest => .ok (.Optional (some value), rest)
  | .Variadic, args => .ok (.Variadic args, [])
  | .RequiredVariadic, args =>
    if args.isEmpty then .error .emptyRequiredVariadic
    else .ok (.RequiredVariadic args, [])

/-- Mirrors `ResolvedArgument::arg_type` (arguments.rs). -/
def ResolvedArgument.arg_type : ResolvedArgument → ArgumentType
  | .Required _ => .Required
  | .Optional _ => .Optional
  | .Variadic _ => .Variadic
  | .RequiredVariadic _ => .RequiredVariadic

/-- Mirrors `ResolvedArgument::matches` (arguments.rs): structural equality of
the value's own arity tag with the expected arity. -/
def ResolvedArgument.matches (r : ResolvedArgument) (t : ArgumentType) : Bool :=
  decide (r.arg_type = t)

/-- The argv elements pushed for one resolved argument in the expansion match
of `Recipe::resolve` (lib.rs, the `match resolved_arg` arms): `Required v`
pushes `v`; `Optional (some v)` pushes `v`; `Optional none` pushes nothing;
`Variadic`/`RequiredVariadic` push every element in order. -/
def ResolvedArgument.values : ResolvedArgument → List String
  | .Required value => [value]
  | .Optional (some value) => [value]
  | .Optional none => []
  | .Variadic vs => vs
  | .RequiredVariadic vs => vs

/-- Mirrors `Component` (lib.rs): one entry of a command template. -/
inductive Component where
  | Literal (literal : String)
  | Argument (arg : ArgumentDefinition)
  | EnvVar (var_name : String)
deriving DecidableEq

/-- The untagged serde representation a raw template entry deserializes from
(lib.rs, `InnerRepr`): either a scalar string or an array of strings. -/
inductive RawComponent where
  | str (s : String)
  | arr (xs : List String)

/-- Mirrors `Component`'s `Deserialize` impl (lib.rs): a scalar is a Literal;
an array must have exactly one element (`array.pop()` then an emptiness
check); a leading `$` makes it an EnvVar with the marker removed; otherwise
the element is parsed by `ArgumentDefinition::from_string`. -/
def Component.from_raw : RawComponent → Except String Component
  | .str literal => .ok (.Literal literal)
  | .arr xs =>
    match xs.getLast? with
    | none => .error "Expected a single argument, but got none"
    | some placeholder =>
      if xs.dropLast.isEmpty then
        if placeholder.data.head? = some '$' then
          .ok (.EnvVar (String.mk placeholder.data.tail))
        else
          (ArgumentDefinition.from_string placeholder).map Component.Argument
      else
        .error "Expected a single argument, but got multiple"

/-- The `bail!`/`?` failure sites of `Recipe::resolve` (lib.rs), plus the
`.with_context` wrapper added around `ArgumentType::resolve` failures. -/
inductive ResolveError where
  | whileResolvingArgument (summary : String) (e : ArgError)
  | argumentNotFound (name : String)
  | arityMismatch (name : String) (defined referenced : ArgumentType)
  | envVarNotFound (var_name : String)
  | unexpectedArguments (remaining : List String)
deriving DecidableEq

/-- The resolved-argument map (`HashMap<String, ResolvedArgument>` in lib.rs),
embedded as a prepend-on-insert association list: lookup finds the most
recent insert, matching `HashMap` overwrite semantics observationally. -/
abbrev RMap := List (String × ResolvedArgument)

/-- `HashMap::insert`: a later insert shadows an earlier binding for lookup. -/
def RMap.insert (m : RMap) (k : String) (v : ResolvedArgument) : RMap := (k, v) :: m

/-- `HashMap::get`. -/
def RMap.lookup (m : RMap) (k : String) : Option ResolvedArgument := List.lookup k m

/-- The first loop of `Recipe::resolve` (lib.rs, lines 126-132): fold over the
argument definitions in list order, resolving each against the current queue
and inserting into the map; a step failure is wrapped with the
`While resolving argument "..."` context. -/
def resolveArguments :
    List ArgumentDefinition → List String → RMap → Except ResolveError (RMap × List String)
  | [], args, acc => .ok (acc, args)
  | arg :: rest, args, acc =>
    match arg.arg_type.resolve args with
    | .error e => .error (.whileResolvingArgument (arg.summarize false).1 e)
    | .ok (resolved_arg, args') =>
      resolveArguments rest args' (RMap.insert acc arg.name resolved_arg)

/-- One iteration of the second loop of `Recipe::resolve` (lib.rs, lines
136-171): a Literal pushes its text; an Argument reference is looked up
(failing if absent), type-checked against the referenced arity (failing on
mismatch), then pushes by the resolved value's shape; an EnvVar pushes the
environment value or fails if the variable is absent. -/
def expandComponent (env : String → Option String) (resolved_args : RMap) :
    Component → Except ResolveError (List String)
  | .Literal literal => .ok [literal]
  | .Argument ref_arg =>
    match RMap.lookup resolved_args ref_arg.name with
    | none => .error (.argumentNotFound ref_arg.name)
    | some resolved_arg =>
      if resolved_arg.matches ref_arg.arg_type then .ok resolved_arg.values
      else .error (.arityMismatch ref_arg.name resolved_arg.arg_type ref_arg.arg_type)
  | .EnvVar var_name =>
    match env var_name with
    | none => .error (.envVarNotFound var_name)
    | some value => .ok [value]

/-- The second loop of `Recipe::resolve` (lib.rs): expand each component in
template order, concatenating the pushed argv elements; the first failing
component aborts the loop. -/
def expandCommand (env : String → Option String) (resolved_args : RMap) :
    List Component → Except ResolveError (List String)
  | [] => .ok []
  | component :: rest =>
    match expandComponent env resolved_args component with
    | .error e => .error e
    | .ok vs =>
      match expandCommand env resolved_args rest with
      | .error e => .error e
      | .ok out => .ok (vs ++ out)

/-- Mirrors `Recipe` (lib.rs). -/
structure Recipe where
  names : List String
  description : String
  arguments : List ArgumentDefinition
  command : List Component

/-- Mirrors `Recipe::resolve` (lib.rs): resolve the argument definitions
against the token queue, expand the command template, and only then fail with
`Unexpected argument(s)` if tokens remain in the queue.  `std::env::var` is
passed in as `env`. -/
def Recipe.resolve (env : String → Option String) (recipe : Recipe) (args : List String) :
    Except ResolveError (List String) :=
  match resolveArguments recipe.arguments args [] with
  | .error e => .error e
  | .ok (resolved_args, args') =>
    match expandCommand env resolved_args recipe.command with
    | .error e => .error e
    | .ok resolved_command =>
      if args'.isEmpty then .ok resolved_command
      else .error (.unexpectedArguments args')

/-- An environment with no variables set, used for concrete test recipes whose
templates contain no `EnvVar` component. -/
def envNone : String → Option String := fun _ => none

/-- The recipe of the repository's integration test `test_resolve_1`
(tests/integration_test.rs): definitions `["arg0", "?arg1", "*arg2"]`,
template `["echo", "Hello", ["?arg1"], ["arg0"], ["*arg2"]]`. -/
def c1Recipe : Recipe where
  names := ["test", "t"]
  description := "Test recipe"
  arguments := [⟨"arg0", .Required⟩, ⟨"arg1", .Optional⟩, ⟨"arg2", .Variadic⟩]
  command := [.Literal "echo", .Literal "Hello", .Argument ⟨"arg1", .Optional⟩,
    .Argument ⟨"arg0", .Required⟩, .Argument ⟨"arg2", .Variadic⟩]

/-- The resolved map produced for `c1Recipe` on tokens
`["val0", "val1", "val2"]` (inserts accumulate by prepending). -/
def c1Map : RMap :=
  [("arg2", .Variadic ["val2"]), ("arg1", .Optional (some "val1")),
    ("arg0", .Required "val0")]

/-- The argument-resolution loop distributes over list append: process the
first block of definitions, then continue with the resulting map and queue. -/
theorem resolveArguments_append (l₁ l₂ : List ArgumentDefinition) :
    ∀ (args : List String) (acc : RMap),
      resolveArguments (l₁ ++ l₂) args acc =
        match resolveArguments l₁ args acc with
        | .error e => .error e
        | .ok (m, rest) => resolveArguments l₂ rest m := by
  induction l₁ with
  | nil => intro args acc; rfl
  | cons d ds ih =>
    intro args acc
    simp only [List.cons_append, resolveArguments]
    cases h : d.arg_type.resolve args with
    | error e => rfl
    | ok p => exact ih p.2 (RMap.insert acc d.name p.1)

/-- A successful Variadic or RequiredVariadic step leaves the queue empty. -/
theorem variadic_resolve_drains (t : ArgumentType) (args : List String)
    (v : ResolvedArgument) (rest : List String)
    (ht : t = .Variadic ∨ t = .RequiredVariadic)
    (h : t.resolve args = .ok (v, rest)) : rest = [] := by
  rcases ht with rfl | rfl
  · simp only [ArgumentType.resolve, Except.ok.injEq, Prod.mk.injEq] at h
    exact h.2.symm
  · simp only [ArgumentType.resolve] at h
    split at h
    · exact absurd h (by simp)
    · simp only [Except.ok.injEq, Prod.mk.injEq] at h
      exact h.2.symm

/-- The command-expansion loop distributes over list append. -/
theorem expandCommand_append (env : String → Option String) (m : RMap)
    (cmd₁ cmd₂ : List Component) :
    expandCommand env m (cmd₁ ++ cmd₂) =
      match expandCommand env m cmd₁ with
      | .error e => .error e
      | .ok v₁ =>
        match expandCommand env m cmd₂ with
        | .error e => .error e
        | .ok v₂ => .ok (v₁ ++ v₂) := by
  induction cmd₁ with
  | nil =>
    simp only [List.nil_append, expandCommand]
    cases h : expandCommand env m cmd₂ with
    | error e => rfl
    | ok v => simp
  | cons c cs ih =>
    simp only [List.cons_append, expandCommand, List.append_eq]
    rw [ih]
    cases hc : expandComponent env m c with
    | error e => rfl
    | ok vs =>
      cases h₁ : expandCommand env m cs with
      | error e => rfl
      | ok v₁ =>
        cases h₂ : expandCommand env m cmd₂ with
        | error e => rfl
        | ok v₂ => simp

/-- C1 (counterexample): on the recipe with definitions
`["arg0", "?arg1", "*arg2"]`, template
`["echo", "Hello", ["?arg1"], ["arg0"], ["*arg2"]]` and tokens
`["val0", "val1", "val2"]`, the expanded vector is NOT the claimed
`["echo", "Hello", "val0", "val1", "val2"]`, and the resolved map binds
neither `arg1` to `Some "val0"` nor `arg0` to `"val1"`: definitions are
processed in definition-list order, so `arg0` (first) takes `"val0"`. -/
theorem c1_scenario_counterexample :
    Recipe.resolve envNone c1Recipe ["val0", "val1", "val2"] ≠
      .ok ["echo", "Hello", "val0", "val1", "val2"] ∧
    RMap.lookup c1Map "arg1" ≠ some (.Optional (some "val0")) ∧
    RMap.lookup c1Map "arg0" ≠ some (.Required "val1") :=
  ⟨by decide, by decide, by decide⟩

/-- C1 (amended): for the recipe with argument definitions
`["arg0", "?arg1", "*arg2"]` (parsed by the arity parser) and command template
`["echo", "Hello", ["?arg1"], ["arg0"], ["*arg2"]]` (parsed by the template
classifier), caller tokens `["val0", "val1", "val2"]` resolve in
definition-list order to `arg0 = Required "val0"`,
`arg1 = Optional (some "val1")`, `arg2 = Variadic ["val2"]`, and the expanded
argument vector is `["echo", "Hello", "val1", "val0", "val2"]` — exactly what
the repository's own integration test `test_resolve_1` asserts. -/
theorem c1_scenario_amended :
    ["arg0", "?arg1", "*arg2"].mapM ArgumentDefinition.from_string =
      .ok c1Recipe.arguments ∧
    [RawComponent.str "echo", .str "Hello", .arr ["?arg1"], .arr ["arg0"],
        .arr ["*arg2"]].mapM Component.from_raw = .ok c1Recipe.command ∧
    resolveArguments c1Recipe.arguments ["val0", "val1", "val2"] [] =
      .ok (c1Map, []) ∧
    RMap.lookup c1Map "arg0" = some (.Required "val0") ∧
    RMap.lookup c1Map "arg1" = some (.Optional (some "val1")) ∧
    RMap.lookup c1Map "arg2" = some (.Variadic ["val2"]) ∧
    Recipe.resolve envNone c1Recipe ["val0", "val1", "val2"] =
      .ok ["echo", "Hello", "val1", "val0", "val2"] :=
  ⟨rfl, rfl, rfl, rfl, rfl, rfl, rfl⟩

/-- C2 (counterexample): a recipe with no argument definitions and an empty
command template resolves successfully to the EMPTY argument vector — there is
no `EmptyResolvedCommand` failure anywhere in `Recipe::resolve`, so a
successful resolution CAN return an empty vector. -/
theorem c2_empty_command_counterexample :
    Recipe.resolve envNone ⟨["r"], "", [], []⟩ [] = .ok [] := rfl

/-- C2 (amended): `Recipe::resolve` performs no final emptiness check.  For
every recipe and token queue, when argument resolution consumes the whole
queue and command expansion succeeds with an empty vector, resolution
succeeds and returns that empty vector (it does not fail). -/
theorem c2_no_emptiness_check (env : String → Option String) (r : Recipe)
    (args : List String) (m : RMap)
    (h1 : resolveArguments r.arguments args [] = .ok (m, []))
    (h2 : expandCommand env m r.command = .ok []) :
    Recipe.resolve env r args = .ok [] := by
  simp [Recipe.resolve, h1, h2]

/-- Witness for C2 (amended) at the empty recipe. -/
theorem c2_no_emptiness_check_witness :
    Recipe.resolve envNone ⟨["r"], "", [], []⟩ [] = .ok [] :=
  c2_no_emptiness_check envNone ⟨["r"], "", [], []⟩ [] [] rfl rfl

/-- C3: a Variadic step drains the entire remaining queue into a list (of any
length, including zero), never failing, with the output list equal to the
input token list (order preserved, no reordering or deduplication); a
RequiredVariadic step drains the entire remaining queue the same way and
fails with the empty-required-variadic error exactly when the queue was
empty. -/
theorem c3_variadic_drain (args : List String) :
    ArgumentType.Variadic.resolve args = .ok (.Variadic args, []) ∧
    (args = [] →
      ArgumentType.RequiredVariadic.resolve args = .error .emptyRequiredVariadic) ∧
    (args ≠ [] →
      ArgumentType.RequiredVariadic.resolve args = .ok (.RequiredVariadic args, [])) := by
  refine ⟨rfl, fun h => by subst h; rfl, fun h => ?_⟩
  cases args with
  | nil => exact absurd rfl h
  | cons a as => rfl

/-- Witness for C3 at concrete queues. -/
theorem c3_variadic_drain_witness :
    ArgumentType.Variadic.resolve ["a", "b"] = .ok (.Variadic ["a", "b"], []) ∧
    ArgumentType.RequiredVariadic.resolve ([] : List String) =
      .error .emptyRequiredVariadic ∧
    ArgumentType.RequiredVariadic.resolve ["a"] = .ok (.RequiredVariadic ["a"], []) :=
  ⟨(c3_variadic_drain ["a", "b"]).1, (c3_variadic_drain []).2.1 rfl,
    (c3_variadic_drain ["a"]).2.2 (by decide)⟩

/-- C5 (counterexample): the leftover-token check runs AFTER command
expansion, so with definitions `[]`, template `[["x"]]` (referencing an
undefined argument) and the leftover token `"extra"`, resolution fails with
the `Argument "x" not found` error, not with `Unexpected argument(s)`. -/
theorem c5_leftover_counterexample :
    Recipe.resolve envNone ⟨["t"], "", [], [.Argument ⟨"x", .Required⟩]⟩ ["extra"] =
      .error (.argumentNotFound "x") ∧
    Recipe.resolve envNone ⟨["t"], "", [], [.Argument ⟨"x", .Required⟩]⟩ ["extra"] ≠
      .error (.unexpectedArguments ["extra"]) :=
  ⟨rfl, by decide⟩

/-- C5 (amended): after all argument definitions are processed, if command
expansion raises no error and the token queue is still non-empty, resolution
fails with the unexpected-extra-arguments error carrying exactly the
remaining tokens (and produces no argument vector). -/
theorem c5_leftover_after_expansion (env : String → Option String) (r : Recipe)
    (args out : List String) (m : RMap) (rest : List String)
    (h1 : resolveArguments r.arguments args [] = .ok (m, rest))
    (h2 : expandCommand env m r.command = .ok out)
    (h3 : rest ≠ []) :
    Recipe.resolve env r args = .error (.unexpectedArguments rest) := by
  cases rest with
  | nil => exact absurd rfl h3
  | cons t ts => simp [Recipe.resolve, h1, h2]

/-- Witness for C5 (amended): an all-literal recipe given one surplus token. -/
theorem c5_leftover_after_expansion_witness :
    Recipe.resolve envNone ⟨["t"], "", [], [.Literal "echo"]⟩ ["x"] =
      .error (.unexpectedArguments ["x"]) :=
  c5_leftover_after_expansion envNone ⟨["t"], "", [], [.Literal "echo"]⟩ ["x"]
    ["echo"] [] ["x"] rfl rfl (by decide)

/-- C6: a Required step pops exactly one token from the front and fails with
the missing-required-argument error when the queue is empty; an Optional step
pops at most one token and yields `Optional none` without error on the empty
queue.  Concretely, definitions `[?x, y, ?z]` against tokens
`["a", "b", "c"]` yield `x = Optional (some "a")`, `y = Required "b"`,
`z = Optional (some "c")` and an empty queue. -/
theorem c6_required_optional_pop (args : List String) :
    (args = [] → ArgumentType.Required.resolve args = .error .requiredNotProvided) ∧
    (∀ v rest, args = v :: rest →
      ArgumentType.Required.resolve args = .ok (.Required v, rest)) ∧
    (args = [] → ArgumentType.Optional.resolve args = .ok (.Optional none, [])) ∧
    (∀ v rest, args = v :: rest →
      ArgumentType.Optional.resolve args = .ok (.Optional (some v), rest)) ∧
    resolveArguments [⟨"x", .Optional⟩, ⟨"y", .Required⟩, ⟨"z", .Optional⟩]
        ["a", "b", "c"] [] =
      .ok ([("z", .Optional (some "c")), ("y", .Required "b"),
        ("x", .Optional (some "a"))], []) :=
  ⟨fun h => by subst h; rfl, fun v rest h => by subst h; rfl,
    fun h => by subst h; rfl, fun v rest h => by subst h; rfl, rfl⟩

/-- Witness for C6 at the empty queue and a concrete non-empty queue. -/
theorem c6_required_optional_pop_witness :
    ArgumentType.Required.resolve ([] : List String) = .error .requiredNotProvided ∧
    ArgumentType.Required.resolve ["a", "b"] = .ok (.Required "a", ["b"]) ∧
    ArgumentType.Optional.resolve ([] : List String) = .ok (.Optional none, []) ∧
    ArgumentType.Optional.resolve ["a", "b"] = .ok (.Optional (some "a"), ["b"]) :=
  ⟨(c6_required_optional_pop []).1 rfl,
    (c6_required_optional_pop ["a", "b"]).2.1 "a" ["b"] rfl,
    (c6_required_optional_pop []).2.2.1 rfl,
    (c6_required_optional_pop ["a", "b"]).2.2.2.1 "a" ["b"] rfl⟩

/-- C4: once a Variadic or RequiredVariadic definition has been resolved, the
queue is empty, and every definition positioned after it is resolved against
the empty queue (with no reordering or special-casing): the whole remaining
suffix runs from `[]`, a step on the empty queue leaves it empty (so this
persists through the suffix), an immediately following Required definition
always fails with the missing-required-argument error, and an immediately
following Optional definition always resolves to `Optional none`. -/
theorem c4_post_variadic_empty_queue (ds₁ : List ArgumentDefinition)
    (d : ArgumentDefinition) (args : List String) (acc m : RMap)
    (rest : List String)
    (hvar : d.arg_type = .Variadic ∨ d.arg_type = .RequiredVariadic)
    (hok : resolveArguments (ds₁ ++ [d]) args acc = .ok (m, rest)) :
    rest = [] ∧
    (∀ ds₂, resolveArguments ((ds₁ ++ [d]) ++ ds₂) args acc =
      resolveArguments ds₂ [] m) ∧
    (∀ t : ArgumentType, (∃ e, t.resolve [] = .error e) ∨
      (∃ v, t.resolve [] = .ok (v, []))) ∧
    (∀ d' ds₂, d'.arg_type = .Required →
      resolveArguments ((ds₁ ++ [d]) ++ d' :: ds₂) args acc =
        .error (.whileResolvingArgument (d'.summarize false).1 .requiredNotProvided)) ∧
    (∀ d' ds₂, d'.arg_type = .Optional →
      resolveArguments ((ds₁ ++ [d]) ++ d' :: ds₂) args acc =
        resolveArguments ds₂ [] (RMap.insert m d'.name (.Optional none))) := by
  have hrest : rest = [] := by
    rw [resolveArguments_append] at hok
    cases h₁ : resolveArguments ds₁ args acc with
    | error e => rw [h₁] at hok; exact absurd hok (by simp)
    | ok p =>
      rw [h₁] at hok
      obtain ⟨m₁, r₁⟩ := p
      simp only [resolveArguments] at hok
      cases h₂ : d.arg_type.resolve r₁ with
      | error e => rw [h₂] at hok; exact absurd hok (by simp)
      | ok q =>
        rw [h₂] at hok
        obtain ⟨v, r₂⟩ := q
        simp only [resolveArguments, Except.ok.injEq, Prod.mk.injEq] at hok
        rw [← hok.2]
        exact variadic_resolve_drains d.arg_type r₁ v r₂ hvar h₂
  subst hrest
  have hsuffix : ∀ ds₂, resolveArguments ((ds₁ ++ [d]) ++ ds₂) args acc =
      resolveArguments ds₂ [] m := by
    intro ds₂
    rw [resolveArguments_append, hok]
  refine ⟨rfl, hsuffix, ?_, ?_, ?_⟩
  · intro t
    cases t with
    | Required => exact .inl ⟨.requiredNotProvided, rfl⟩
    | Optional => exact .inr ⟨.Optional none, rfl⟩
    | Variadic => exact .inr ⟨.Variadic [], rfl⟩
    | RequiredVariadic => exact .inl ⟨.emptyRequiredVariadic, rfl⟩
  · intro d' ds₂ hr
    rw [hsuffix (d' :: ds₂)]
    simp only [resolveArguments, hr, ArgumentType.resolve]
  · intro d' ds₂ ho
    rw [hsuffix (d' :: ds₂)]
    simp only [resolveArguments, ho, ArgumentType.resolve]

/-- Witness for C4: a Variadic definition followed by a Required one. -/
theorem c4_post_variadic_empty_queue_witness :
    resolveArguments [⟨"v", ArgumentType.Variadic⟩, ⟨"r", ArgumentType.Required⟩]
        ["a"] [] =
      .error (.whileResolvingArgument "r" .requiredNotProvided) :=
  (c4_post_variadic_empty_queue [] ⟨"v", .Variadic⟩ ["a"] []
    [("v", .Variadic ["a"])] [] (Or.inl rfl) rfl).2.2.2.1 ⟨"r", .Required⟩ [] rfl

/-- C7: the arity parser maps a leading `?` to Optional, `*` to Variadic and
`+` to RequiredVariadic, removing that leading character to obtain the name;
any other first character gives Required with the string unmodified as the
name; and it fails with the empty-specifier error exactly when the input has
zero characters. -/
theorem c7_arity_parser_spec (s : String) :
    (ArgumentDefinition.from_string s = .error "Empty argument" ↔ s.data = []) ∧
    (∀ c rest, s.data = c :: rest →
      (c = '?' →
        ArgumentDefinition.from_string s = .ok ⟨String.mk rest, .Optional⟩) ∧
      (c = '*' →
        ArgumentDefinition.from_string s = .ok ⟨String.mk rest, .Variadic⟩) ∧
      (c = '+' →
        ArgumentDefinition.from_string s = .ok ⟨String.mk rest, .RequiredVariadic⟩) ∧
      (c ≠ '?' → c ≠ '*' → c ≠ '+' →
        ArgumentDefinition.from_string s = .ok ⟨s, .Required⟩)) := by
  constructor
  · cases h : s.data with
    | nil => simp [ArgumentDefinition.from_string, h]
    | cons c rest => simp [ArgumentDefinition.from_string, h]
  · intro c rest h
    refine ⟨fun hc => ?_, fun hc => ?_, fun hc => ?_, fun h₁ h₂ h₃ => ?_⟩ <;>
      simp_all [ArgumentDefinition.from_string]

/-- Witness for C7 at one specifier of each form. -/
theorem c7_arity_parser_spec_witness :
    ArgumentDefinition.from_string "?x" = .ok ⟨"x", .Optional⟩ ∧
    ArgumentDefinition.from_string "*x" = .ok ⟨"x", .Variadic⟩ ∧
    ArgumentDefinition.from_string "+x" = .ok ⟨"x", .RequiredVariadic⟩ ∧
    ArgumentDefinition.from_string "abc" = .ok ⟨"abc", .Required⟩ ∧
    ArgumentDefinition.from_string "" = .error "Empty argument" :=
  ⟨((c7_arity_parser_spec "?x").2 '?' ['x'] rfl).1 rfl,
    ((c7_arity_parser_spec "*x").2 '*' ['x'] rfl).2.1 rfl,
    ((c7_arity_parser_spec "+x").2 '+' ['x'] rfl).2.2.1 rfl,
    ((c7_arity_parser_spec "abc").2 'a' ['b', 'c'] rfl).2.2.2
      (by decide) (by decide) (by decide),
    (c7_arity_parser_spec "").1.mpr rfl⟩

/-- C8: during expansion, for an argument reference whose name is bound in the
resolved map, a referenced arity differing from the resolved value's own
arity tag fails with the arity-mismatch error (no silent coercion), while an
equal arity expands by the resolved value's shape and continues with the rest
of the template. -/
theorem c8_arity_mismatch_guard (env : String → Option String) (m : RMap)
    (name : String) (ref_type : ArgumentType) (res : ResolvedArgument)
    (rest : List Component)
    (hm : RMap.lookup m name = some res) :
    (res.arg_type ≠ ref_type →
      expandCommand env m (.Argument ⟨name, ref_type⟩ :: rest) =
        .error (.arityMismatch name res.arg_type ref_type)) ∧
    (res.arg_type = ref_type →
      expandCommand env m (.Argument ⟨name, ref_type⟩ :: rest) =
        (expandCommand env m rest).map (fun out => res.values ++ out)) := by
  constructor <;> intro h
  · simp [expandCommand, expandComponent, hm, ResolvedArgument.matches, h]
  · have hb : res.matches ref_type = true := by
      simp [ResolvedArgument.matches, h]
    simp only [expandCommand, expandComponent, hm, hb, if_true]
    cases expandCommand env m rest <;> rfl

/-- Witness for C8: a Required binding referenced with an Optional sigil
fails, and referenced with the matching arity expands to its value. -/
theorem c8_arity_mismatch_guard_witness :
    expandCommand envNone [("x", .Required "a")] [.Argument ⟨"x", .Optional⟩] =
      .error (.arityMismatch "x" .Required .Optional) ∧
    expandCommand envNone [("x", .Required "a")] [.Argument ⟨"x", .Required⟩] =
      .ok ["a"] :=
  ⟨(c8_arity_mismatch_guard envNone [("x", .Required "a")] "x" .Optional
      (.Required "a") [] rfl).1 (by decide),
    (c8_arity_mismatch_guard envNone [("x", .Required "a")] "x" .Required
      (.Required "a") [] rfl).2 rfl⟩

/-- C9 (counterexample): the one-character specifier `"?"` parses
successfully to a definition whose name is the EMPTY string (the parser only
rejects the zero-character input, and strips the sigil without checking that
anything remains). -/
theorem c9_sigil_only_counterexample :
    ArgumentDefinition.from_string "?" = .ok ⟨"", .Optional⟩ ∧
    (ArgumentDefinition.mk "" .Optional).name = "" :=
  ⟨rfl, rfl⟩

/-- C9 (amended): a definition produced by the arity parser has a non-empty
name only when its arity is Required (no sigil: the non-empty input string is
the name unmodified); each sigil-only one-character specifier `?`, `*`, `+`
parses successfully to a definition with an empty name. -/
theorem c9_name_amended (s : String) (d : ArgumentDefinition)
    (h : ArgumentDefinition.from_string s = .ok d) :
    (d.arg_type = .Required → d.name = s ∧ s ≠ "") ∧
    ArgumentDefinition.from_string "?" = .ok ⟨"", .Optional⟩ ∧
    ArgumentDefinition.from_string "*" = .ok ⟨"", .Variadic⟩ ∧
    ArgumentDefinition.from_string "+" = .ok ⟨"", .RequiredVariadic⟩ := by
  refine ⟨fun hr => ⟨?_, ?_⟩, rfl, rfl, rfl⟩
  · cases hd : s.data with
    | nil =>
      rw [ArgumentDefinition.from_string] at h
      rw [hd] at h
      exact absurd h (by simp)
    | cons c rest =>
      rw [ArgumentDefinition.from_string] at h
      rw [hd] at h
      simp only [Except.ok.injEq] at h
      rw [← h] at hr ⊢
      simp only at hr ⊢
      rw [if_pos hr]
  · intro heq
    rw [heq] at h
    simp [ArgumentDefinition.from_string] at h

/-- Witness for C9 (amended) at a plain Required specifier. -/
theorem c9_name_amended_witness :
    (ArgumentDefinition.mk "abc" .Required).name = "abc" ∧ "abc" ≠ "" :=
  (c9_name_amended "abc" ⟨"abc", .Required⟩ rfl).1 rfl

/-- C10: expansion imposes no reference-count discipline.  The argument phase
consumes its tokens independently of the template: a recipe whose template
references nothing (here: the empty template) still resolves successfully,
its definitions having consumed the whole queue and contributed nothing.
Expansion distributes over template concatenation, and a component expanding
to `vs` occurring twice contributes `vs ++ vs` — each occurrence appends its
value(s) again. -/
theorem c10_no_reference_count (env : String → Option String) (m : RMap)
    (cmd₁ cmd₂ : List Component) (ns : List String) (desc : String)
    (ds : List ArgumentDefinition) (ts : List String)
    (hargs : resolveArguments ds ts [] = .ok (m, [])) :
    Recipe.resolve env ⟨ns, desc, ds, []⟩ ts = .ok [] ∧
    expandCommand env m (cmd₁ ++ cmd₂) =
      (match expandCommand env m cmd₁ with
      | .error e => .error e
      | .ok v₁ =>
        match expandCommand env m cmd₂ with
        | .error e => .error e
        | .ok v₂ => .ok (v₁ ++ v₂)) ∧
    (∀ c vs, expandComponent env m c = .ok vs →
      expandCommand env m [c, c] = .ok (vs ++ vs)) := by
  refine ⟨?_, expandCommand_append env m cmd₁ cmd₂, ?_⟩
  · simp [Recipe.resolve, hargs, expandCommand]
  · intro c vs h
    simp [expandCommand, h]

/-- Witness for C10: one Required definition, never referenced, consumes its
token and the recipe still resolves (to the empty template's empty vector). -/
theorem c10_no_reference_count_witness :
    Recipe.resolve envNone ⟨["t"], "", [⟨"x", .Required⟩], []⟩ ["a"] = .ok [] :=
  (c10_no_reference_count envNone [("x", .Required "a")] [] [] ["t"] ""
    [⟨"x", .Required⟩] ["a"] rfl).1

end Jiu
